import Mathlib

/-!
Shallow embedding of the cloak_privacy_browser host process (`src/main.rs`):
the profile store (the load step inlined in `create_bootstrap_script`, and
the save step in the IPC dispatcher), the bootstrap script builder
`create_bootstrap_script`, the IPC command validator `validate_ipc_command`,
and the IPC dispatcher closure installed with `with_ipc_handler`.

JSON values are modelled by the inductive type `Json`, with integer numbers
(`serde_json::Value` numbers restricted to the i64 fragment; the profile
documents the host builds use only integers).  `to_string` and `from_str`
model `serde_json::to_string` / `serde_json::from_str::<serde_json::Value>`
on this fragment: compact printing with the escapes serde_json emits, and a
parser accepting that grammar plus the standard JSON string escapes, without
insignificant whitespace and without floating-point forms.  Object members
are kept in order as an association list; `Json.get` returns the first
binding of a key, which agrees with `serde_json::Value::get` on the
duplicate-free objects serde_json itself produces.

External effects of the IPC closure (file writes, directory creation, the
native save dialog, worker-thread spawns) are recorded in an `IpcEffects`
record; the result of `std::fs::read_to_string` is modelled by an
`Option String` (`none` = any I/O error), and the `rfd` save dialog by a
function `String → Option String` from the pre-filled file name to the
chosen path (`none` = the user cancelled).
-/

inductive Json where
  | null : Json
  | bool : Bool → Json
  | num : Int → Json
  | str : String → Json
  | arr : List Json → Json
  | obj : List (String × Json) → Json

/-- Decimal digit `d` (`d < 10`) as a character. -/
def digitChar (d : Nat) : Char := Char.ofNat (48 + d)

/-- Big-endian decimal digits of `n` (empty for `0`), fuelled so that the
kernel can evaluate it; fuel `n + 1` always suffices. -/
def natChars : Nat → Nat → List Char
  | 0, _ => []
  | f + 1, n => if n = 0 then [] else natChars f (n / 10) ++ [digitChar (n % 10)]

/-- Decimal rendering of a natural number, as `itoa` prints it. -/
def printNat (n : Nat) : List Char :=
  if n = 0 then ['0'] else natChars (n + 1) n

/-- Decimal rendering of an integer, as serde_json prints an i64. -/
def printInt (n : Int) : List Char :=
  if n < 0 then '-' :: printNat n.natAbs else printNat n.toNat

/-- Lower-case hex digit `d` (`d < 16`) as a character. -/
def hexChar (d : Nat) : Char :=
  if d < 10 then Char.ofNat (48 + d) else Char.ofNat (87 + d)

/-- The escape sequence serde_json emits for one string character: `\"`,
`\\`, the short escapes `\b \t \n \f \r`, `\u00XX` for the remaining
control characters, and the character itself otherwise. -/
def escChar (c : Char) : List Char :=
  if c = '\x22' then ['\x5c', '\x22']
  else if c = '\x5c' then ['\x5c', '\x5c']
  else if c = '\x08' then ['\x5c', 'b']
  else if c = '\x09' then ['\x5c', 't']
  else if c = '\x0a' then ['\x5c', 'n']
  else if c = '\x0c' then ['\x5c', 'f']
  else if c = '\x0d' then ['\x5c', 'r']
  else if c.toNat < 32 then
    '\x5c' :: 'u' :: '0' :: '0' :: hexChar (c.toNat / 16) :: [hexChar (c.toNat % 16)]
  else [c]

/-- serde_json escaping of a whole string body. -/
def escStr : List Char → List Char
  | [] => []
  | c :: cs => escChar c ++ escStr cs

mutual

/-- Compact serde_json rendering of a JSON value (`serde_json::to_string`). -/
def printJson : Json → List Char
  | .num n => printInt n
  | .str s => '\x22' :: (escStr s.data ++ ['\x22'])
  | .null => 'n' :: 'u' :: 'l' :: 'l' :: []
  | .bool true => 't' :: 'r' :: 'u' :: 'e' :: []
  | .bool false => 'f' :: 'a' :: 'l' :: 's' :: 'e' :: []
  | .arr [] => '[' :: ']' :: []
  | .arr (v :: vs) => '[' :: printElems v vs ++ [']']
  | .obj [] => '\x7b' :: '\x7d' :: []
  | .obj ((k, v) :: kvs) => '\x7b' :: printMembers k v kvs ++ ['\x7d']
termination_by j => sizeOf j

/-- Comma-separated rendering of a non-empty array body. -/
def printElems : Json → List Json → List Char
  | v, [] => printJson v
  | v, w :: vs => printJson v ++ ',' :: printElems w vs
termination_by v vs => sizeOf v + sizeOf vs

/-- Comma-separated rendering of a non-empty object body. -/
def printMembers : String → Json → List (String × Json) → List Char
  | k, v, [] => '\x22' :: (escStr k.data ++ '\x22' :: ':' :: printJson v)
  | k, v, (k2, v2) :: kvs =>
      ('\x22' :: (escStr k.data ++ '\x22' :: ':' :: printJson v)) ++ ',' :: printMembers k2 v2 kvs
termination_by _ v kvs => sizeOf v + sizeOf kvs

end

/-- `serde_json::to_string` on a `Value`: total on this fragment (the
`unwrap_or("{}")` fallback at src/main.rs:65 is unreachable for it). -/
def to_string (j : Json) : String := ⟨printJson j⟩

example : to_string (.num 42) = "42" := by
  simp only [to_string, printJson, printInt, printNat]
  decide
example : to_string (.num (-7)) = "-7" := by
  simp only [to_string, printJson, printInt, printNat]
  decide
example : to_string (.arr [.num 0, .str "a", .null]) = "[0,\"a\",null]" := by
  simp only [to_string, printJson, printElems, printInt, printNat]
  decide
example : to_string (.obj [("a", .num 1), ("b", .arr [])]) = "\x7b\"a\":1,\"b\":[]\x7d" := by
  simp only [to_string, printJson, printMembers, printInt, printNat]
  decide
example : to_string (.str "x\ny") = "\"x\x5cny\"" := by
  simp only [to_string, printJson]
  decide

/-- Value of one hex digit, as serde_json's `\uXXXX` decoder accepts it. -/
def hexVal (c : Char) : Option Nat :=
  if 48 ≤ c.toNat ∧ c.toNat ≤ 57 then some (c.toNat - 48)
  else if 97 ≤ c.toNat ∧ c.toNat ≤ 102 then some (c.toNat - 87)
  else if 65 ≤ c.toNat ∧ c.toNat ≤ 70 then some (c.toNat - 55)
  else none

/-- JSON string-body parser, entered just after the opening quote: returns
the decoded characters and the input remaining after the closing quote.
Handles the standard escapes; `\uXXXX` is decoded through `Char.ofNat`
(surrogate pairs, which serde_json recombines, are outside this fragment). -/
def parseStr : List Char → Option (List Char × List Char)
  | [] => none
  | c :: r =>
    if c = '\x22' then some ([], r)
    else if c = '\x5c' then
      match r with
      | [] => none
      | e :: r1 =>
        if e = '\x22' then (parseStr r1).map fun p => ('\x22' :: p.1, p.2)
        else if e = '\x5c' then (parseStr r1).map fun p => ('\x5c' :: p.1, p.2)
        else if e = '/' then (parseStr r1).map fun p => ('/' :: p.1, p.2)
        else if e = 'b' then (parseStr r1).map fun p => ('\x08' :: p.1, p.2)
        else if e = 't' then (parseStr r1).map fun p => ('\x09' :: p.1, p.2)
        else if e = 'n' then (parseStr r1).map fun p => ('\x0a' :: p.1, p.2)
        else if e = 'f' then (parseStr r1).map fun p => ('\x0c' :: p.1, p.2)
        else if e = 'r' then (parseStr r1).map fun p => ('\x0d' :: p.1, p.2)
        else if e = 'u' then
          match r1 with
          | h1 :: h2 :: h3 :: h4 :: r2 =>
            match hexVal h1, hexVal h2, hexVal h3, hexVal h4 with
            | some a, some b, some c2, some d =>
              (parseStr r2).map fun p =>
                (Char.ofNat (((a * 16 + b) * 16 + c2) * 16 + d) :: p.1, p.2)
            | _, _, _, _ => none
          | _ => none
        else none
    else if c.toNat < 32 then none
    else (parseStr r).map fun p => (c :: p.1, p.2)

/-- Longest digit run at the head of the input, and the rest. -/
def takeDigits : List Char → List Char × List Char
  | [] => ([], [])
  | c :: r =>
    if c.isDigit then
      let p := takeDigits r
      (c :: p.1, p.2)
    else ([], c :: r)

/-- Numeric value of a big-endian digit run. -/
def digitsVal (ds : List Char) : Nat :=
  ds.foldl (fun a c => 10 * a + (c.toNat - 48)) 0

/-- A digit run that JSON rejects as a number: more than one digit with a
leading zero. -/
def leadingZero : List Char → Bool
  | '0' :: _ :: _ => true
  | _ => false

mutual

/-- Fuelled JSON value parser modelling `serde_json::from_str` on the
integer fragment: one unit of fuel is spent per value node, so any fuel
larger than the number of value nodes (in particular, larger than the
input length) is enough.  `' '` is used as an out-of-band default head
(it can begin no JSON token in this whitespace-free grammar). -/
def parseVal : Nat → List Char → Option (Json × List Char)
  | 0, _ => none
  | _ + 1, [] => none
  | f + 1, c :: r =>
    if c = 'n' then
      if r.take 3 = ['u', 'l', 'l'] then some (.null, r.drop 3) else none
    else if c = 't' then
      if r.take 3 = ['r', 'u', 'e'] then some (.bool true, r.drop 3) else none
    else if c = 'f' then
      if r.take 4 = ['a', 'l', 's', 'e'] then some (.bool false, r.drop 4) else none
    else if c = '\x22' then
      (parseStr r).map fun p => (.str ⟨p.1⟩, p.2)
    else if c = '[' then
      if r.headD ' ' = ']' then some (.arr [], r.tail)
      else (parseElems f r).map fun p => (.arr p.1, p.2)
    else if c = '\x7b' then
      if r.headD ' ' = '\x7d' then some (.obj [], r.tail)
      else (parseMembers f r).map fun p => (.obj p.1, p.2)
    else if c = '-' then
      if (r.headD ' ').isDigit then
        if leadingZero (takeDigits r).1 then none
        else some (.num (-(digitsVal (takeDigits r).1 : Int)), (takeDigits r).2)
      else none
    else if c.isDigit then
      if leadingZero (takeDigits (c :: r)).1 then none
      else some (.num ((digitsVal (takeDigits (c :: r)).1 : Int)), (takeDigits (c :: r)).2)
    else none

/-- Non-empty array body parser, entered just after `[`: consumes the
closing `]` as well. -/
def parseElems : Nat → List Char → Option (List Json × List Char)
  | 0, _ => none
  | f + 1, l =>
    match parseVal f l with
    | some (v, r) =>
      if r.headD ' ' = ',' then (parseElems f r.tail).map fun p => (v :: p.1, p.2)
      else if r.headD ' ' = ']' then some ([v], r.tail)
      else none
    | none => none

/-- Non-empty object body parser, entered just after the opening brace:
consumes the closing brace as well. -/
def parseMembers : Nat → List Char → Option (List (String × Json) × List Char)
  | 0, _ => none
  | f + 1, l =>
    if l.headD ' ' = '\x22' then
      match parseStr l.tail with
      | some (ks, r1) =>
        if r1.headD ' ' = ':' then
          match parseVal f r1.tail with
          | some (v, r3) =>
            if r3.headD ' ' = ',' then
              (parseMembers f r3.tail).map fun p => ((⟨ks⟩, v) :: p.1, p.2)
            else if r3.headD ' ' = '\x7d' then some ([(⟨ks⟩, v)], r3.tail)
            else none
          | none => none
        else none
      | none => none
    else none

end

/-- `serde_json::from_str::<serde_json::Value>` on this fragment: parse one
JSON value and require the whole input consumed. -/
def from_str (s : String) : Option Json :=
  match parseVal (s.data.length + 1) s.data with
  | some (v, []) => some v
  | _ => none

example : from_str "42" = some (.num 42) := rfl
example : from_str "-7" = some (.num (-7)) := rfl
example : from_str "null" = some .null := rfl
example : from_str "[0,\"a\",null]" = some (.arr [.num 0, .str "a", .null]) := rfl
example : from_str "\x7b\"a\":1,\"b\":[]\x7d" = some (.obj [("a", .num 1), ("b", .arr [])]) := rfl
example : from_str "not json" = none := rfl
example : from_str "" = none := rfl
example : from_str "\x7b\x7d" = some (.obj []) := rfl
example : from_str "[]" = some (.arr []) := rfl
example : from_str "\"x\x5cny\"" = some (.str "x\ny") := rfl
example : from_str "01" = none := rfl
example : from_str "[1,]" = none := rfl
example : from_str "tru" = none := rfl

/-- The input does not start with a decimal digit (so a digit run ending
right before it is maximal). -/
def digitFree : List Char → Bool
  | [] => true
  | c :: _ => !c.isDigit

theorem digitChar_toNat (d : Nat) (h : d < 10) : (digitChar d).toNat = 48 + d := by
  interval_cases d <;> decide

theorem digitChar_isDigit (d : Nat) (h : d < 10) : (digitChar d).isDigit = true := by
  interval_cases d <;> decide

theorem digitChar_ne_zero (d : Nat) (h0 : 0 < d) (h : d < 10) : digitChar d ≠ '0' := by
  interval_cases d <;> decide

theorem natChars_digits (f : Nat) :
    ∀ n c, c ∈ natChars f n → c.isDigit = true := by
  induction f with
  | zero => intro n c hc; simp [natChars] at hc
  | succ f ih =>
    intro n c hc
    by_cases hn : n = 0
    · simp [natChars, hn] at hc
    · rw [natChars, if_neg hn] at hc
      rcases List.mem_append.mp hc with h | h
      · exact ih _ _ h
      · rcases List.mem_singleton.mp h with rfl
        exact digitChar_isDigit _ (Nat.mod_lt _ (by omega))

theorem digitsVal_append_one (xs : List Char) (c : Char) :
    digitsVal (xs ++ [c]) = 10 * digitsVal xs + (c.toNat - 48) := by
  simp [digitsVal, List.foldl_append]

theorem digitsVal_natChars (n : Nat) :
    ∀ f, n < f → digitsVal (natChars f n) = n := by
  induction n using Nat.strong_induction_on with
  | _ n ih =>
    intro f hf
    match f, hf with
    | f + 1, _ =>
      by_cases hn : n = 0
      · simp [natChars, hn, digitsVal]
      · rw [natChars, if_neg hn, digitsVal_append_one,
          ih (n / 10) (Nat.div_lt_self (by omega) (by omega)) f (by omega),
          digitChar_toNat _ (Nat.mod_lt _ (by omega))]
        omega

theorem natChars_zero (f : Nat) : natChars f 0 = [] := by
  cases f <;> simp [natChars]

theorem natChars_head (n : Nat) :
    ∀ f, 0 < n → n < f → ∃ d t, natChars f n = digitChar d :: t ∧ 0 < d ∧ d < 10 := by
  induction n using Nat.strong_induction_on with
  | _ n ih =>
    intro f h0 hf
    match f, hf with
    | f + 1, _ =>
      rw [natChars, if_neg (by omega)]
      by_cases hq : n / 10 = 0
      · refine ⟨n % 10, [], ?_, by omega, Nat.mod_lt _ (by omega)⟩
        simp [hq, natChars_zero]
      · obtain ⟨d, t, ht, hd0, hd10⟩ :=
          ih (n / 10) (Nat.div_lt_self (by omega) (by omega)) f (by omega) (by omega)
        exact ⟨d, t ++ [digitChar (n % 10)], by rw [ht]; simp, hd0, hd10⟩

theorem printNat_digits (n : Nat) : ∀ c ∈ printNat n, c.isDigit = true := by
  intro c hc
  by_cases hn : n = 0
  · simp [printNat, hn] at hc; subst hc; decide
  · rw [printNat, if_neg hn] at hc; exact natChars_digits _ _ _ hc

theorem digitsVal_printNat (n : Nat) : digitsVal (printNat n) = n := by
  by_cases hn : n = 0
  · simp [printNat, hn]; decide
  · rw [printNat, if_neg hn]; exact digitsVal_natChars n (n + 1) (by omega)

theorem printNat_shape (n : Nat) :
    printNat n = ['0'] ∨ ∃ d t, printNat n = digitChar d :: t ∧ 0 < d ∧ d < 10 := by
  by_cases hn : n = 0
  · left; simp [printNat, hn]
  · right
    rw [printNat, if_neg hn]
    exact natChars_head n (n + 1) (by omega) (by omega)

theorem takeDigits_append (ds : List Char) :
    ∀ rest, (∀ c ∈ ds, c.isDigit = true) → digitFree rest = true →
      takeDigits (ds ++ rest) = (ds, rest) := by
  induction ds with
  | nil =>
    intro rest _ hrest
    match rest, hrest with
    | [], _ => rfl
    | c :: r, hrest =>
      have hc : c.isDigit = false := by
        simpa [digitFree] using hrest
      simp [takeDigits, hc]
  | cons d ds ih =>
    intro rest hds hrest
    have hd : d.isDigit = true := hds d (by simp)
    simp only [List.cons_append, takeDigits, hd, if_true, List.append_eq]
    rw [ih rest (fun c hc => hds c (by simp [hc])) hrest]

theorem hexVal_hexChar (d : Nat) (h : d < 16) : hexVal (hexChar d) = some d := by
  interval_cases d <;> decide

theorem leadingZero_cons (c : Char) (t : List Char) (h : c ≠ '0') :
    leadingZero (c :: t) = false := by
  rw [leadingZero.eq_def]
  split
  · rename_i heq
    injection heq with h1 _
    exact absurd h1 h
  · rfl

theorem leadingZero_printNat (n : Nat) : leadingZero (printNat n) = false := by
  rcases printNat_shape n with h | ⟨d, t, h, hd0, hd10⟩
  · rw [h]; rfl
  · rw [h]; exact leadingZero_cons _ _ (digitChar_ne_zero d hd0 hd10)

theorem parseStr_esc : ∀ cs rest, parseStr (escStr cs ++ '\x22' :: rest) = some (cs, rest) := by
  intro cs
  induction cs with
  | nil =>
    intro rest
    show parseStr ('\x22' :: rest) = _
    rw [parseStr.eq_def]
    simp
  | cons c cs ih =>
    intro rest
    show parseStr ((escChar c ++ escStr cs) ++ '\x22' :: rest) = _
    rw [List.append_assoc]
    by_cases h1 : c = '\x22'
    · subst h1
      simp only [escChar, reduceIte, List.cons_append, List.nil_append]
      rw [parseStr.eq_def]
      simp [ih]
    · by_cases h2 : c = '\x5c'
      · subst h2
        simp only [escChar, reduceIte, List.cons_append, List.nil_append]
        rw [parseStr.eq_def]
        simp [ih]
      · by_cases h3 : c = '\x08'
        · subst h3
          simp only [escChar, reduceIte, List.cons_append, List.nil_append]
          rw [parseStr.eq_def]
          simp [ih]
        · by_cases h4 : c = '\x09'
          · subst h4
            simp only [escChar, reduceIte, List.cons_append, List.nil_append]
            rw [parseStr.eq_def]
            simp [ih]
          · by_cases h5 : c = '\x0a'
            · subst h5
              simp only [escChar, reduceIte, List.cons_append, List.nil_append]
              rw [parseStr.eq_def]
              simp [ih]
            · by_cases h6 : c = '\x0c'
              · subst h6
                simp only [escChar, reduceIte, List.cons_append, List.nil_append]
                rw [parseStr.eq_def]
                simp [ih]
              · by_cases h7 : c = '\x0d'
                · subst h7
                  simp only [escChar, reduceIte, List.cons_append, List.nil_append]
                  rw [parseStr.eq_def]
                  simp [ih]
                · by_cases h8 : c.toNat < 32
                  · have he : escChar c =
                        '\x5c' :: 'u' :: '0' :: '0' :: hexChar (c.toNat / 16)
                          :: [hexChar (c.toNat % 16)] := by
                      simp [escChar, h1, h2, h3, h4, h5, h6, h7, h8]
                    rw [he]
                    simp only [List.cons_append, List.nil_append]
                    rw [parseStr.eq_def]
                    simp only [reduceIte, reduceCtorEq]
                    rw [hexVal_hexChar _ (by omega), hexVal_hexChar _ (by omega),
                      show hexVal '0' = some 0 from rfl]
                    simp [ih]
                    rw [show c.toNat / 16 * 16 + c.toNat % 16 = c.toNat by omega]
                    exact Char.ofNat_toNat c
                  · have he : escChar c = [c] := by
                      simp [escChar, h1, h2, h3, h4, h5, h6, h7, h8]
                    rw [he]
                    simp only [List.cons_append, List.nil_append]
                    rw [parseStr.eq_def]
                    simp [ih, h1, h2, h8]

mutual

/-- Fuel sufficient for `parseVal` on the printed form of a value: one unit
per value node of the tree. -/
def fuelJson : Json → Nat
  | .arr vs => fuelElems vs + 1
  | .obj kvs => fuelMembers kvs + 1
  | .str _ => 1
  | .num _ => 1
  | .bool _ => 1
  | .null => 1
termination_by j => sizeOf j

/-- Fuel sufficient for `parseElems` on a printed array body. -/
def fuelElems : List Json → Nat
  | [] => 0
  | v :: vs => fuelJson v + fuelElems vs + 1
termination_by vs => sizeOf vs

/-- Fuel sufficient for `parseMembers` on a printed object body. -/
def fuelMembers : List (String × Json) → Nat
  | [] => 0
  | (_, v) :: kvs => fuelJson v + fuelMembers kvs + 1
termination_by kvs => sizeOf kvs

end

theorem fuelJson_pos (v : Json) : 1 ≤ fuelJson v := by
  cases v <;> simp [fuelJson]

theorem isDigit_ne (c x : Char) (h : c.isDigit = true) (hx : x.isDigit = false) : c ≠ x := by
  rintro rfl
  rw [h] at hx
  exact Bool.noConfusion hx

theorem printNat_head (n : Nat) : ∃ c t, printNat n = c :: t ∧ c.isDigit = true := by
  rcases printNat_shape n with h | ⟨d, t, h, _, hd10⟩
  · exact ⟨'0', [], h, by decide⟩
  · exact ⟨digitChar d, t, h, digitChar_isDigit d hd10⟩

theorem printJson_head (v : Json) : ∃ c t, printJson v = c :: t ∧ c ≠ ']' ∧ c ≠ '\x7d' := by
  cases v with
  | null => exact ⟨'n', ['u', 'l', 'l'], by simp [printJson], by decide, by decide⟩
  | bool b =>
    cases b
    · exact ⟨'f', ['a', 'l', 's', 'e'], by simp [printJson], by decide, by decide⟩
    · exact ⟨'t', ['r', 'u', 'e'], by simp [printJson], by decide, by decide⟩
  | num n =>
    by_cases hn : n < 0
    · exact ⟨'-', printNat n.natAbs, by simp [printJson, printInt, hn], by decide, by decide⟩
    · obtain ⟨c, t, ht, hd⟩ := printNat_head n.toNat
      exact ⟨c, t, by simp [printJson, printInt, hn, ht],
        isDigit_ne c ']' hd (by decide), isDigit_ne c '\x7d' hd (by decide)⟩
  | str s =>
    exact ⟨'\x22', escStr s.data ++ ['\x22'], by simp [printJson], by decide, by decide⟩
  | arr vs =>
    cases vs with
    | nil => exact ⟨'[', [']'], by simp [printJson], by decide, by decide⟩
    | cons v vs =>
      exact ⟨'[', printElems v vs ++ [']'], by simp [printJson], by decide, by decide⟩
  | obj kvs =>
    cases kvs with
    | nil => exact ⟨'\x7b', ['\x7d'], by simp [printJson], by decide, by decide⟩
    | cons kv kvs =>
      obtain ⟨k2, v2⟩ := kv
      exact ⟨'\x7b', printMembers k2 v2 kvs ++ ['\x7d'], by simp [printJson], by decide,
        by decide⟩

theorem printElems_split (v : Json) (vs : List Json) :
    ∃ tail, printElems v vs = printJson v ++ tail := by
  cases vs with
  | nil => exact ⟨[], by simp [printElems]⟩
  | cons w vs => exact ⟨',' :: printElems w vs, by simp [printElems]⟩

theorem digitFree_cons (c : Char) (r : List Char) : digitFree (c :: r) = !c.isDigit := rfl

mutual

theorem fuelJson_le : (v : Json) → fuelJson v ≤ (printJson v).length
  | .null => by simp [fuelJson, printJson]
  | .bool true => by simp [fuelJson, printJson]
  | .bool false => by simp [fuelJson, printJson]
  | .num n => by
    by_cases hn : n < 0
    · simp [fuelJson, printJson, printInt, hn]
    · obtain ⟨c, t, ht, _⟩ := printNat_head n.toNat
      simp [fuelJson, printJson, printInt, hn, ht]
  | .str s => by simp [fuelJson, printJson]
  | .arr [] => by simp [fuelJson, fuelElems, printJson]
  | .arr (v :: vs) => by
    have h := fuelElems_le v vs
    simp only [fuelJson, printJson, List.length_cons, List.length_append]
    simp at h ⊢
    omega
  | .obj [] => by simp [fuelJson, fuelMembers, printJson]
  | .obj ((k, v) :: kvs) => by
    have h := fuelMembers_le k v kvs
    simp only [fuelJson, printJson, List.length_cons, List.length_append]
    simp at h ⊢
    omega
termination_by v => sizeOf v

theorem fuelElems_le : (v : Json) → (vs : List Json) →
    fuelElems (v :: vs) ≤ (printElems v vs).length + 1
  | v, [] => by
    have h := fuelJson_le v
    simp [fuelElems, printElems]
    omega
  | v, w :: vs => by
    have h1 := fuelJson_le v
    have h2 := fuelElems_le w vs
    simp only [fuelElems, printElems, List.length_append, List.length_cons] at *
    omega
termination_by v vs => sizeOf v + sizeOf vs

theorem fuelMembers_le : (k : String) → (v : Json) → (kvs : List (String × Json)) →
    fuelMembers ((k, v) :: kvs) ≤ (printMembers k v kvs).length + 1
  | k, v, [] => by
    have h := fuelJson_le v
    simp [fuelMembers, printMembers]
    omega
  | k, v, (k2, v2) :: kvs => by
    have h1 := fuelJson_le v
    have h2 := fuelMembers_le k2 v2 kvs
    simp only [fuelMembers, printMembers, List.length_append, List.length_cons] at *
    omega
termination_by _ v kvs => sizeOf v + sizeOf kvs

end

theorem printMembers_split (k : String) (v : Json) (kvs : List (String × Json)) :
    ∃ tail, printMembers k v kvs = '\x22' :: tail := by
  cases kvs with
  | nil => exact ⟨escStr k.data ++ '\x22' :: ':' :: printJson v, by simp [printMembers]⟩
  | cons kv kvs =>
    obtain ⟨k2, v2⟩ := kv
    exact ⟨(escStr k.data ++ '\x22' :: ':' :: printJson v) ++ ',' :: printMembers k2 v2 kvs,
      by simp [printMembers]⟩

theorem fuelElems_cons (v : Json) (vs : List Json) :
    fuelElems (v :: vs) = fuelJson v + fuelElems vs + 1 := by
  rw [fuelElems.eq_def]

theorem fuelMembers_cons (k : String) (v : Json) (kvs : List (String × Json)) :
    fuelMembers ((k, v) :: kvs) = fuelJson v + fuelMembers kvs + 1 := by
  rw [fuelMembers.eq_def]

theorem parseVal_step_str (g : Nat) (r : List Char) :
    parseVal (g + 1) ('\x22' :: r) = (parseStr r).map (fun p => (Json.str ⟨p.1⟩, p.2)) := rfl

theorem parseVal_step_arr (g : Nat) (r : List Char) :
    parseVal (g + 1) ('[' :: r) =
      (if r.headD ' ' = ']' then some (Json.arr [], r.tail)
       else (parseElems g r).map (fun p => (Json.arr p.1, p.2))) := rfl

theorem parseVal_step_obj (g : Nat) (r : List Char) :
    parseVal (g + 1) ('\x7b' :: r) =
      (if r.headD ' ' = '\x7d' then some (Json.obj [], r.tail)
       else (parseMembers g r).map (fun p => (Json.obj p.1, p.2))) := rfl

theorem parseVal_step_neg (g : Nat) (r : List Char) :
    parseVal (g + 1) ('-' :: r) =
      (if (r.headD ' ').isDigit then
        (if leadingZero (takeDigits r).1 then none
         else some (Json.num (-(digitsVal (takeDigits r).1 : Int)), (takeDigits r).2))
       else none) := rfl

theorem parseVal_step_digit (g : Nat) (c : Char) (r : List Char) (hc : c.isDigit = true) :
    parseVal (g + 1) (c :: r) =
      (if leadingZero (takeDigits (c :: r)).1 then none
       else some (Json.num ((digitsVal (takeDigits (c :: r)).1 : Int)),
         (takeDigits (c :: r)).2)) := by
  have h1 := isDigit_ne c 'n' hc (by decide)
  have h2 := isDigit_ne c 't' hc (by decide)
  have h3 := isDigit_ne c 'f' hc (by decide)
  have h4 := isDigit_ne c '\x22' hc (by decide)
  have h5 := isDigit_ne c '[' hc (by decide)
  have h6 := isDigit_ne c '\x7b' hc (by decide)
  have h7 := isDigit_ne c '-' hc (by decide)
  change (if c = 'n' then _ else if c = 't' then _ else if c = 'f' then _
    else if c = '\x22' then _ else if c = '[' then _ else if c = '\x7b' then _
    else if c = '-' then _
    else if c.isDigit then
      (if leadingZero (takeDigits (c :: r)).1 then none
       else some (Json.num ((digitsVal (takeDigits (c :: r)).1 : Int)), (takeDigits (c :: r)).2))
    else none) = _
  rw [if_neg h1, if_neg h2, if_neg h3, if_neg h4, if_neg h5, if_neg h6, if_neg h7, if_pos hc]

theorem parseElems_step (g : Nat) (l : List Char) :
    parseElems (g + 1) l =
      (match parseVal g l with
       | some (v, r) =>
         if r.headD ' ' = ',' then (parseElems g r.tail).map (fun p => (v :: p.1, p.2))
         else if r.headD ' ' = ']' then some ([v], r.tail)
         else none
       | none => none) := rfl

theorem parseMembers_step (g : Nat) (l : List Char) :
    parseMembers (g + 1) l =
      (if l.headD ' ' = '\x22' then
        (match parseStr l.tail with
         | some (ks, r1) =>
           if r1.headD ' ' = ':' then
             (match parseVal g r1.tail with
              | some (v, r3) =>
                if r3.headD ' ' = ',' then
                  (parseMembers g r3.tail).map (fun p => ((⟨ks⟩, v) :: p.1, p.2))
                else if r3.headD ' ' = '\x7d' then some ([(⟨ks⟩, v)], r3.tail)
                else none
              | none => none)
           else none
         | none => none)
       else none) := rfl

/-- A positive amount of fuel is a successor. -/
theorem fuel_succ (f : Nat) (h : 1 ≤ f) : ∃ g, f = g + 1 := ⟨f - 1, by omega⟩

mutual

theorem rt_val : (v : Json) → ∀ f rest, fuelJson v ≤ f → digitFree rest = true →
    parseVal f (printJson v ++ rest) = some (v, rest)
  | .null => by
    intro f rest hf _
    simp only [fuelJson] at hf
    obtain ⟨g, rfl⟩ := fuel_succ f (by omega)
    simp only [printJson, List.cons_append, List.nil_append]
    rfl
  | .bool true => by
    intro f rest hf _
    simp only [fuelJson] at hf
    obtain ⟨g, rfl⟩ := fuel_succ f (by omega)
    simp only [printJson, List.cons_append, List.nil_append]
    rfl
  | .bool false => by
    intro f rest hf _
    simp only [fuelJson] at hf
    obtain ⟨g, rfl⟩ := fuel_succ f (by omega)
    simp only [printJson, List.cons_append, List.nil_append]
    rfl
  | .num n => by
    intro f rest hf hrest
    simp only [fuelJson] at hf
    obtain ⟨g, rfl⟩ := fuel_succ f (by omega)
    by_cases hn : n < 0
    · have hdig := printNat_digits n.natAbs
      have htake := takeDigits_append (printNat n.natAbs) rest hdig hrest
      have hlz := leadingZero_printNat n.natAbs
      have hval := digitsVal_printNat n.natAbs
      obtain ⟨c, t, hsh, hcd⟩ := printNat_head n.natAbs
      rw [hsh] at hlz hval
      simp only [printJson, printInt, if_pos hn, List.cons_append]
      rw [parseVal_step_neg, htake, hsh]
      simp only [List.cons_append, List.headD_cons, hcd, hlz, hval, reduceIte]
      rw [show -(n.natAbs : Int) = n from by omega]
      rfl
    · have hdig := printNat_digits n.toNat
      have htake := takeDigits_append (printNat n.toNat) rest hdig hrest
      have hlz := leadingZero_printNat n.toNat
      have hval := digitsVal_printNat n.toNat
      obtain ⟨c, t, hsh, hcd⟩ := printNat_head n.toNat
      rw [hsh] at htake hlz hval
      simp only [List.cons_append] at htake
      simp only [printJson, printInt, if_neg hn, hsh, List.cons_append]
      rw [parseVal_step_digit g c (t ++ rest) hcd, htake]
      simp only [hlz, hval, reduceIte]
      rw [show (n.toNat : Int) = n from by omega]
      rfl
  | .str s => by
    intro f rest hf _
    simp only [fuelJson] at hf
    obtain ⟨g, rfl⟩ := fuel_succ f (by omega)
    simp only [printJson, List.cons_append, List.append_assoc, List.nil_append]
    rw [parseVal_step_str, parseStr_esc]
    rfl
  | .arr [] => by
    intro f rest hf _
    simp only [fuelJson] at hf
    obtain ⟨g, rfl⟩ := fuel_succ f (by omega)
    simp only [printJson, List.cons_append, List.nil_append]
    rfl
  | .arr (v :: vs) => by
    intro f rest hf _
    simp only [fuelJson] at hf
    obtain ⟨g, rfl⟩ := fuel_succ f (by omega)
    obtain ⟨tail0, hpe⟩ := printElems_split v vs
    obtain ⟨c0, t0, hhead, hne1, _⟩ := printJson_head v
    have hre := rt_elems v vs g rest (by omega)
    simp only [printJson, List.cons_append, List.append_assoc, List.nil_append]
    have hcond : ¬ ((printElems v vs ++ ']' :: rest).headD ' ' = ']') := by
      rw [hpe, hhead]
      simp only [List.cons_append, List.append_assoc, List.headD_cons]
      exact hne1
    rw [parseVal_step_arr, if_neg hcond, hre]
    rfl
  | .obj [] => by
    intro f rest hf _
    simp only [fuelJson] at hf
    obtain ⟨g, rfl⟩ := fuel_succ f (by omega)
    simp only [printJson, List.cons_append, List.nil_append]
    rfl
  | .obj ((k, v) :: kvs) => by
    intro f rest hf _
    simp only [fuelJson] at hf
    obtain ⟨g, rfl⟩ := fuel_succ f (by omega)
    obtain ⟨tail0, hpm⟩ := printMembers_split k v kvs
    have hrm := rt_members k v kvs g rest (by omega)
    simp only [printJson, List.cons_append, List.append_assoc, List.nil_append]
    have hcond : ¬ ((printMembers k v kvs ++ '\x7d' :: rest).headD ' ' = '\x7d') := by
      rw [hpm]
      simp only [List.cons_append, List.headD_cons]
      decide
    rw [parseVal_step_obj, if_neg hcond, hrm]
    rfl
termination_by v => sizeOf v

theorem rt_elems : (v : Json) → (vs : List Json) → ∀ f rest, fuelElems (v :: vs) ≤ f →
    parseElems f (printElems v vs ++ ']' :: rest) = some (v :: vs, rest)
  | v, [] => by
    intro f rest hf
    rw [fuelElems_cons] at hf
    obtain ⟨g, rfl⟩ := fuel_succ f (by omega)
    have hv := rt_val v g (']' :: rest) (by omega) (by rw [digitFree_cons]; decide)
    simp only [printElems]
    rw [parseElems_step, hv]
    rfl
  | v, w :: vs => by
    intro f rest hf
    rw [fuelElems_cons] at hf
    obtain ⟨g, rfl⟩ := fuel_succ f (by omega)
    have hv := rt_val v g (',' :: (printElems w vs ++ ']' :: rest)) (by omega)
      (by rw [digitFree_cons]; decide)
    have hrec := rt_elems w vs g rest (by omega)
    simp only [printElems, List.cons_append, List.append_assoc]
    rw [parseElems_step, hv]
    simp [hrec]
termination_by v vs => sizeOf v + sizeOf vs

theorem rt_members : (k : String) → (v : Json) → (kvs : List (String × Json)) →
    ∀ f rest, fuelMembers ((k, v) :: kvs) ≤ f →
      parseMembers f (printMembers k v kvs ++ '\x7d' :: rest) = some ((k, v) :: kvs, rest)
  | k, v, [] => by
    intro f rest hf
    rw [fuelMembers_cons] at hf
    obtain ⟨g, rfl⟩ := fuel_succ f (by omega)
    have hv := rt_val v g ('\x7d' :: rest) (by omega) (by rw [digitFree_cons]; decide)
    have hs := parseStr_esc k.data (':' :: (printJson v ++ '\x7d' :: rest))
    simp only [printMembers, List.cons_append, List.append_assoc]
    rw [parseMembers_step]
    simp only [List.headD_cons, List.tail_cons, reduceIte]
    rw [hs]
    simp [hv]
  | k, v, (k2, v2) :: kvs => by
    intro f rest hf
    rw [fuelMembers_cons] at hf
    obtain ⟨g, rfl⟩ := fuel_succ f (by omega)
    have hv := rt_val v g (',' :: (printMembers k2 v2 kvs ++ '\x7d' :: rest)) (by omega)
      (by rw [digitFree_cons]; decide)
    have hs := parseStr_esc k.data
      (':' :: (printJson v ++ ',' :: (printMembers k2 v2 kvs ++ '\x7d' :: rest)))
    have hrec := rt_members k2 v2 kvs g rest (by omega)
    simp only [printMembers, List.cons_append, List.append_assoc]
    rw [parseMembers_step]
    simp only [List.headD_cons, List.tail_cons, reduceIte]
    rw [hs]
    simp [hv, hrec]
termination_by _ v kvs => sizeOf v + sizeOf kvs

end

/-- Printing then parsing recovers the value: the serde_json round trip on
this fragment. -/
theorem from_str_to_string (v : Json) : from_str (to_string v) = some v := by
  have hfuel : fuelJson v ≤ (printJson v).length + 1 :=
    le_trans (fuelJson_le v) (Nat.le_succ _)
  have h := rt_val v ((printJson v).length + 1) [] hfuel rfl
  rw [List.append_nil] at h
  show (match parseVal ((printJson v).length + 1) (printJson v) with
    | some (v, []) => some v
    | _ => none) = some v
  rw [h]


example : from_str (to_string (.obj [("a", .num 1), ("b", .str "x")])) =
    some (.obj [("a", .num 1), ("b", .str "x")]) := from_str_to_string _

/-- `serde_json::Value::get(key)`: field of an object, `None` otherwise
(objects produced by serde_json have unique keys, so first-binding lookup
agrees with it). -/
def Json.get : Json → String → Option Json
  | .obj kvs, k => kvs.lookup k
  | _, _ => none

/-- `serde_json::Value::as_str`: the string content of a JSON string. -/
def Json.as_str : Json → Option String
  | .str s => some s
  | _ => none

/-- `serde_json::Value::is_object`. -/
def Json.isObj : Json → Bool
  | .obj _ => true
  | _ => false

/-- The default profile document built at src/main.rs:52-57, parameterized
by `start_url`. -/
def default_profile (start_url : String) : Json :=
  .obj [("tabs", .arr [.obj [("url", .str start_url), ("title", .str "New Tab")]]),
        ("active", .num 0),
        ("bookmarks", .arr []),
        ("history", .arr [])]

/-- The profile-load step at src/main.rs:60-63: the result of
`std::fs::read_to_string(profile_file)` is modelled by `readResult`
(`none` = any I/O error), and `from_str(..).unwrap_or(default)` keeps any
parsed value and falls back to the caller's default on parse failure.
Total: never raises. -/
def load_profile (readResult : Option String) (default : Json) : Json :=
  match readResult with
  | some s => (from_str s).getD default
  | none => default

/-- `create_bootstrap_script` (src/main.rs:50-76): builds the default
document from `start_url`, loads the on-disk profile with it as fallback,
and splices the serialization into the script text (the source's
`to_string(..).unwrap_or("{}")` fallback is unreachable for a `Value`).
The file read is modelled by its result. -/
def create_bootstrap_script (readResult : Option String) (start_url : String) : String :=
  let profile_value := load_profile readResult (default_profile start_url)
  let profile_literal := to_string profile_value
  "\n        // Bootstrap for cloak_browser\n        try \x7b\n          window.__CB_INITIAL__ = "
    ++ profile_literal
    ++ ";\n        \x7d catch(_e) \x7b\x7d\n        "

/-- `validate_ipc_command` (src/main.rs:78-83).  Defined in the source but
never called by the dispatcher closure. -/
def validate_ipc_command (cmd : String) (_data : Json) : Bool :=
  if cmd = "tabs_save" then true
  else if cmd = "tabs_load" then true
  else false

/-- Externally visible actions of one IPC callback invocation: attempted
file writes (path, contents), attempted directory creations, native save
dialogs shown (with their pre-filled file name), and download worker
threads spawned (url, chosen save path). -/
structure IpcEffects where
  fileWrites : List (String × String)
  dirCreates : List String
  dialogsShown : List String
  threadsSpawned : List (String × String)
deriving Repr, DecidableEq

/-- No externally visible action. -/
def noEffects : IpcEffects := ⟨[], [], [], []⟩

/-- The IPC closure installed with `with_ipc_handler` (src/main.rs:115-154).
`profile_file` and `profile_parent` (its `parent()`) are the captured
profile path; `dialog` models
`rfd::FileDialog::new().set_file_name(..).save_file()` (`none` = the user
cancelled); `body` is the raw message string.  The closure's external
actions are recorded as effects; `let _ = std::fs::write(..)` and
`let _ = create_dir_all(..)` discard failures, so a failed write or
directory creation changes nothing else and raises nothing. -/
def ipc_handler (profile_file : String) (profile_parent : Option String)
    (dialog : String → Option String) (body : String) : IpcEffects :=
  match from_str body with
  | none => noEffects
  | some v =>
    match (v.get "cmd").bind Json.as_str with
    | none => noEffects
    | some cmd =>
      if cmd = "profile_save" then
        match v.get "payload" with
        | some profile =>
          { fileWrites := [(profile_file, to_string profile)]
            dirCreates := profile_parent.toList
            dialogsShown := []
            threadsSpawned := [] }
        | none => noEffects
      else if cmd = "download_start" then
        match v.get "payload" with
        | some p =>
          let url := ((p.get "url").bind Json.as_str).getD ""
          let file := ((p.get "file").bind Json.as_str).getD "download"
          match dialog file with
          | none =>
            { fileWrites := [], dirCreates := [], dialogsShown := [file], threadsSpawned := [] }
          | some path =>
            { fileWrites := [], dirCreates := [], dialogsShown := [file],
              threadsSpawned := [(url, path)] }
        | none => noEffects
      else noEffects

/-- One `std::fs::write(path, contents)` call with outcome `ok` applied to
a file-system map (path ↦ contents); a failed write changes nothing. -/
def applyWrite (fs : String → Option String) (path contents : String) (ok : Bool) :
    String → Option String :=
  fun q => if ok ∧ q = path then some contents else fs q


example : ipc_handler "p" (some "d") (fun _ => none) "notjson" = noEffects := rfl
example : ipc_handler "p" (some "d") (fun _ => none)
    "\x7b\"cmd\":\"profile_save\",\"payload\":0\x7d" =
    { fileWrites := [("p", to_string (Json.num 0))], dirCreates := ["d"],
      dialogsShown := [], threadsSpawned := [] } := rfl
example : ipc_handler "p" (some "d") (fun _ => some "q")
    "\x7b\"cmd\":\"download_start\",\"payload\":\x7b\"url\":\"u\",\"file\":\"f\"\x7d\x7d" =
    { fileWrites := [], dirCreates := [], dialogsShown := ["f"],
      threadsSpawned := [("u", "q")] } := rfl
example : ipc_handler "p" (some "d") (fun _ => none)
    "\x7b\"cmd\":\"download_start\",\"payload\":\x7b\"url\":\"u\",\"file\":\"f\"\x7d\x7d" =
    { fileWrites := [], dirCreates := [], dialogsShown := ["f"],
      threadsSpawned := [] } := rfl

/-- C1 counterexample: the file contents `42` parse as JSON (a bare number,
not an object), and the profile value used by the bootstrap builder is that
number, not the default document — refuting the claim that a parsed
non-object value is replaced by the default. -/
theorem C1_counterexample :
    from_str "42" = some (Json.num 42) ∧
    Json.isObj (Json.num 42) = false ∧
    load_profile (some "42") (default_profile "about:blank") = Json.num 42 ∧
    load_profile (some "42") (default_profile "about:blank") ≠
      default_profile "about:blank" := by
  refine ⟨rfl, rfl, rfl, ?_⟩
  intro h
  exact Json.noConfusion h

/-- C1 (amended): for every profile file whose contents parse as JSON —
object-shaped or not — the profile value used by the bootstrap builder is
the parsed value itself; the default document is substituted only on read
failure or parse failure. -/
theorem C1_amended (s : String) (v d : Json) (h : from_str s = some v) :
    load_profile (some s) d = v := by
  simp [load_profile, h]

/-- C1 amended, witnessed at the file contents `42`. -/
theorem C1_amended_witness :
    load_profile (some "42") (default_profile "about:blank") = Json.num 42 :=
  C1_amended "42" (Json.num 42) (default_profile "about:blank") rfl

/-- C2: the profile load step is total (never raises) and returns exactly
the caller-supplied default both when the file read fails for any I/O
reason and when the contents fail to parse as JSON. -/
theorem C2_load_default :
    (∀ d : Json, load_profile none d = d) ∧
    (∀ s d, from_str s = none → load_profile (some s) d = d) := by
  refine ⟨fun d => rfl, ?_⟩
  intro s d h
  simp [load_profile, h]

/-- C2, witnessed at an unreadable file and at the unparsable contents
`oops`. -/
theorem C2_load_default_witness :
    load_profile none (Json.num 7) = Json.num 7 ∧
    from_str "oops" = none ∧
    load_profile (some "oops") (Json.num 7) = Json.num 7 :=
  ⟨C2_load_default.1 (Json.num 7), rfl, C2_load_default.2 "oops" (Json.num 7) rfl⟩

/-- C3: a raw IPC message that is not valid JSON, or lacks a `cmd` field,
or whose `cmd` is not a string, or whose string `cmd` is neither
`profile_save` nor `download_start`, produces no effect at all: no file
write, no directory creation, no dialog, no thread spawn (and, being a
total function, no exception). -/
theorem C3_malformed_dropped (pf : String) (pp : Option String)
    (dlg : String → Option String) (s : String)
    (h : from_str s = none ∨
      ∃ v, from_str s = some v ∧
        ((v.get "cmd").bind Json.as_str = none ∨
          ∃ c, (v.get "cmd").bind Json.as_str = some c ∧
            c ≠ "profile_save" ∧ c ≠ "download_start")) :
    ipc_handler pf pp dlg s = noEffects := by
  rcases h with h | ⟨v, hv, h⟩
  · simp [ipc_handler, h]
  · rcases h with h | ⟨c, hc, h1, h2⟩
    · simp [ipc_handler, hv, h]
    · simp [ipc_handler, hv, hc, h1, h2]

/-- C3, witnessed at the non-JSON message `x`. -/
theorem C3_malformed_dropped_witness :
    ipc_handler "p" none (fun _ => none) "x" = noEffects :=
  C3_malformed_dropped "p" none (fun _ => none) "x" (Or.inl rfl)

/-- C4: `validate_ipc_command` accepts exactly `tabs_save` and `tabs_load`
(so it rejects `profile_save` and `download_start`), while a message whose
`cmd` is `tabs_save` or `tabs_load` produces no handler action in the
dispatcher. -/
theorem C4_validator_vs_dispatch :
    (∀ cmd d, validate_ipc_command cmd d = true ↔
      (cmd = "tabs_save" ∨ cmd = "tabs_load")) ∧
    (∀ pf pp dlg s v c, from_str s = some v →
      (v.get "cmd").bind Json.as_str = some c →
      (c = "tabs_save" ∨ c = "tabs_load") →
      ipc_handler pf pp dlg s = noEffects) := by
  constructor
  · intro cmd d
    constructor
    · intro h
      by_cases h1 : cmd = "tabs_save"
      · exact Or.inl h1
      · by_cases h2 : cmd = "tabs_load"
        · exact Or.inr h2
        · simp [validate_ipc_command, h1, h2] at h
    · rintro (rfl | rfl) <;> rfl
  · intro pf pp dlg s v c hv hc hor
    have h1 : c ≠ "profile_save" := by rcases hor with rfl | rfl <;> decide
    have h2 : c ≠ "download_start" := by rcases hor with rfl | rfl <;> decide
    simp [ipc_handler, hv, hc, h1, h2]

/-- C4, witnessed at `tabs_save` (accepted by the validator, ignored by the
dispatcher) and at `profile_save` (rejected by the validator). -/
theorem C4_validator_vs_dispatch_witness :
    (validate_ipc_command "tabs_save" Json.null = true ↔
      ("tabs_save" = "tabs_save" ∨ "tabs_save" = "tabs_load")) ∧
    (validate_ipc_command "profile_save" Json.null = true ↔
      ("profile_save" = "tabs_save" ∨ "profile_save" = "tabs_load")) ∧
    ipc_handler "p" none (fun _ => none) "\x7b\"cmd\":\"tabs_save\"\x7d" = noEffects :=
  ⟨C4_validator_vs_dispatch.1 "tabs_save" Json.null,
   C4_validator_vs_dispatch.1 "profile_save" Json.null,
   C4_validator_vs_dispatch.2 "p" none (fun _ => none) _
     (Json.obj [("cmd", Json.str "tabs_save")]) "tabs_save" rfl rfl (Or.inl rfl)⟩

/-- C5: a `profile_save` message with payload `P` makes the dispatcher
create the profile file's parent directory (when it has one) and write
exactly the serialization of `P` to the fixed profile path — nothing else;
the written text parses back to exactly `P`, a successful write leaves the
file holding that text, and a failed write changes nothing and raises
nothing. -/
theorem C5_profile_save (pf : String) (pp : Option String)
    (dlg : String → Option String) (s : String) (v P : Json)
    (hv : from_str s = some v)
    (hc : (v.get "cmd").bind Json.as_str = some "profile_save")
    (hp : v.get "payload" = some P) :
    ipc_handler pf pp dlg s =
      { fileWrites := [(pf, to_string P)], dirCreates := pp.toList,
        dialogsShown := [], threadsSpawned := [] } ∧
    from_str (to_string P) = some P ∧
    (∀ fs : String → Option String,
      applyWrite fs pf (to_string P) true pf = some (to_string P)) ∧
    (∀ fs : String → Option String, ∀ q, applyWrite fs pf (to_string P) false q = fs q) := by
  refine ⟨?_, from_str_to_string P, fun fs => by simp [applyWrite],
    fun fs q => by simp [applyWrite]⟩
  simp [ipc_handler, hv, hc, hp]

/-- C5, witnessed at the message `{"cmd":"profile_save","payload":0}`. -/
theorem C5_profile_save_witness :
    ipc_handler "p" (some "d") (fun _ => none)
        "\x7b\"cmd\":\"profile_save\",\"payload\":0\x7d" =
      { fileWrites := [("p", to_string (Json.num 0))], dirCreates := ["d"],
        dialogsShown := [], threadsSpawned := [] } ∧
    from_str (to_string (Json.num 0)) = some (Json.num 0) ∧
    applyWrite (fun _ => none) "p" (to_string (Json.num 0)) true "p" =
      some (to_string (Json.num 0)) ∧
    applyWrite (fun _ => none) "p" (to_string (Json.num 0)) false "q" = none :=
  have h := C5_profile_save "p" (some "d") (fun _ => none)
    "\x7b\"cmd\":\"profile_save\",\"payload\":0\x7d"
    (Json.obj [("cmd", Json.str "profile_save"), ("payload", Json.num 0)]) (Json.num 0)
    rfl rfl rfl
  ⟨h.1, h.2.1, h.2.2.1 (fun _ => none), h.2.2.2 (fun _ => none) "q"⟩

/-- C6: save-then-load round trip — the profile-save path writes exactly
the serialization of the payload `P`, and loading that text back with any
default yields exactly `P` (serde_json serialization followed by parsing
is the identity on values), with no concurrent writer by construction. -/
theorem C6_round_trip (pf : String) (pp : Option String)
    (dlg : String → Option String) (P d : Json) :
    (ipc_handler pf pp dlg
        (to_string (Json.obj [("cmd", Json.str "profile_save"), ("payload", P)]))).fileWrites =
      [(pf, to_string P)] ∧
    load_profile (some (to_string P)) d = P ∧
    from_str (to_string P) = some P := by
  refine ⟨?_, ?_, from_str_to_string P⟩
  · simp [ipc_handler, from_str_to_string, Json.get, Json.as_str, List.lookup]
  · simp [load_profile, from_str_to_string]

/-- C7: for a `download_start` message, a payload whose `file` field is
absent or not a string pre-fills the save dialog with `download`; and
whenever the dialog is cancelled the handler stops with no further effect:
no file write, no directory creation, no thread spawn. -/
theorem C7_download_cancel (pf : String) (pp : Option String)
    (dlg : String → Option String) (s : String) (v p : Json)
    (hv : from_str s = some v)
    (hc : (v.get "cmd").bind Json.as_str = some "download_start")
    (hp : v.get "payload" = some p) :
    ((p.get "file").bind Json.as_str = none →
      (ipc_handler pf pp dlg s).dialogsShown = ["download"]) ∧
    (dlg (((p.get "file").bind Json.as_str).getD "download") = none →
      ipc_handler pf pp dlg s =
        { fileWrites := [], dirCreates := [],
          dialogsShown := [((p.get "file").bind Json.as_str).getD "download"],
          threadsSpawned := [] }) := by
  constructor
  · intro hfile
    cases hd : dlg "download" <;>
      simp [ipc_handler, hv, hc, hp, hfile, hd]
  · intro hd
    simp [ipc_handler, hv, hc, hp, hd]

/-- C7, witnessed at `{"cmd":"download_start","payload":{}}` with the
dialog cancelled. -/
theorem C7_download_cancel_witness :
    (ipc_handler "p" none (fun _ => none)
        "\x7b\"cmd\":\"download_start\",\"payload\":\x7b\x7d\x7d").dialogsShown =
      ["download"] ∧
    ipc_handler "p" none (fun _ => none)
        "\x7b\"cmd\":\"download_start\",\"payload\":\x7b\x7d\x7d" =
      { fileWrites := [], dirCreates := [], dialogsShown := ["download"],
        threadsSpawned := [] } :=
  ⟨(C7_download_cancel "p" none (fun _ => none)
      "\x7b\"cmd\":\"download_start\",\"payload\":\x7b\x7d\x7d"
      (Json.obj [("cmd", Json.str "download_start"), ("payload", Json.obj [])]) (Json.obj [])
      rfl rfl rfl).1 rfl,
   (C7_download_cancel "p" none (fun _ => none)
      "\x7b\"cmd\":\"download_start\",\"payload\":\x7b\x7d\x7d"
      (Json.obj [("cmd", Json.str "download_start"), ("payload", Json.obj [])]) (Json.obj [])
      rfl rfl rfl).2 rfl⟩

/-- C8: the bootstrap builder constructs the default document as a single
tab at `start_url` titled `New Tab` with active index 0 and empty
bookmarks and history, loads the on-disk profile with that default as
fallback, and emits exactly the script that assigns the serialized
loaded-or-default value to `window.__CB_INITIAL__` inside a try/catch that
swallows any runtime failure; the emitted literal parses back to exactly
the loaded-or-default value. -/
theorem C8_bootstrap (r : Option String) (u : String) :
    create_bootstrap_script r u =
      "\n        // Bootstrap for cloak_browser\n        try \x7b\n          window.__CB_INITIAL__ = "
        ++ to_string (load_profile r (default_profile u))
        ++ ";\n        \x7d catch(_e) \x7b\x7d\n        " ∧
    default_profile u =
      Json.obj [("tabs", Json.arr [Json.obj [("url", Json.str u),
          ("title", Json.str "New Tab")]]),
        ("active", Json.num 0), ("bookmarks", Json.arr []), ("history", Json.arr [])] ∧
    from_str (to_string (load_profile r (default_profile u))) =
      some (load_profile r (default_profile u)) :=
  ⟨rfl, rfl, from_str_to_string _⟩

/-- C9: a `profile_save` message with no `payload` field performs no write
at all: no file write, no truncation, no directory creation — the profile
file is left untouched. -/
theorem C9_no_payload_no_write (pf : String) (pp : Option String)
    (dlg : String → Option String) (s : String) (v : Json)
    (hv : from_str s = some v)
    (hc : (v.get "cmd").bind Json.as_str = some "profile_save")
    (hp : v.get "payload" = none) :
    ipc_handler pf pp dlg s = noEffects ∧
    (ipc_handler pf pp dlg s).fileWrites = [] ∧
    (ipc_handler pf pp dlg s).dirCreates = [] := by
  have h : ipc_handler pf pp dlg s = noEffects := by simp [ipc_handler, hv, hc, hp]
  exact ⟨h, by rw [h]; rfl, by rw [h]; rfl⟩

/-- C9, witnessed at `{"cmd":"profile_save"}`. -/
theorem C9_no_payload_no_write_witness :
    ipc_handler "p" (some "d") (fun _ => none) "\x7b\"cmd\":\"profile_save\"\x7d" =
      noEffects ∧
    (ipc_handler "p" (some "d") (fun _ => none)
      "\x7b\"cmd\":\"profile_save\"\x7d").fileWrites = [] ∧
    (ipc_handler "p" (some "d") (fun _ => none)
      "\x7b\"cmd\":\"profile_save\"\x7d").dirCreates = [] :=
  C9_no_payload_no_write "p" (some "d") (fun _ => none) _
    (Json.obj [("cmd", Json.str "profile_save")]) rfl rfl rfl

/-- C10: a `download_start` message whose payload lacks a string `url` is
not dropped: the empty string is substituted for the url, the save dialog
is still shown, and if the user picks a path a worker is still spawned for
the empty url. -/
theorem C10_url_default (pf : String) (pp : Option String)
    (dlg : String → Option String) (s : String) (v p : Json) (path : String)
    (hv : from_str s = some v)
    (hc : (v.get "cmd").bind Json.as_str = some "download_start")
    (hp : v.get "payload" = some p)
    (hu : (p.get "url").bind Json.as_str = none)
    (hd : dlg (((p.get "file").bind Json.as_str).getD "download") = some path) :
    ipc_handler pf pp dlg s =
      { fileWrites := [], dirCreates := [],
        dialogsShown := [((p.get "file").bind Json.as_str).getD "download"],
        threadsSpawned := [("", path)] } := by
  simp [ipc_handler, hv, hc, hp, hu, hd]

/-- C10, witnessed at `{"cmd":"download_start","payload":{"file":"f"}}`
with the dialog choosing `q`. -/
theorem C10_url_default_witness :
    ipc_handler "p" none (fun _ => some "q")
        "\x7b\"cmd\":\"download_start\",\"payload\":\x7b\"file\":\"f\"\x7d\x7d" =
      { fileWrites := [], dirCreates := [], dialogsShown := ["f"],
        threadsSpawned := [("", "q")] } :=
  C10_url_default "p" none (fun _ => some "q") _
    (Json.obj [("cmd", Json.str "download_start"),
      ("payload", Json.obj [("file", Json.str "f")])])
    (Json.obj [("file", Json.str "f")]) "q" rfl rfl rfl rfl rfl
